import Mathlib

/-!
Verification of the module composition and request-handling core of the
repository (the base module in `src/unnamed/part_000`).  The JavaScript
source is shallowly embedded: JS values flowing through the error
normalizer are modelled by the inductive `JVal`; stateful route
compilation is modelled by explicit state passing on `ModuleState`;
the response / logging side effects of `routeSendError` and of the api
route wrapper are modelled as ordered effect traces (`Effect`).
-/

namespace Apos

/-- A JavaScript value, as far as the error-normalization code inspects
values: `null`/`undefined` are both `jnull`, strings, numbers (integral;
the code never does fractional arithmetic on error objects), objects as
ordered association lists (JS object keys are unique and iterate in
insertion order) and arrays. -/
inductive JVal where
  | jnull
  | jstr (s : String)
  | jnum (n : Int)
  | jobj (fields : List (String × JVal))
  | jarr (elems : List JVal)

/-- Property access `v[k]`: on an object, the value of the field (first
occurrence; JS objects have unique keys); everything else yields
`jnull` (JS `undefined`; the code only reads properties of objects,
strings or arrays, where named properties are `undefined`). -/
def getField : JVal → String → JVal
  | .jobj fs, k =>
    match fs.find? (fun p => p.1 == k) with
    | some p => p.2
    | none => .jnull
  | _, _ => .jnull

/-- Assignment `o[k] = v` to an existing key: replaces the value of the
(first, unique) occurrence of `k`. -/
def setFields : List (String × JVal) → String → JVal → List (String × JVal)
  | [], _, _ => []
  | p :: ps, k, v => if p.1 == k then (k, v) :: ps else p :: setFields ps k v

/-- Assignment `o[k] = v` on a JS object (the normalizer only assigns to
a key it has just read, so the key is present). -/
def setField : JVal → String → JVal → JVal
  | .jobj fs, k, v => .jobj (setFields fs k v)
  | x, _, _ => x

/-- JS truthiness of a value: `null`/`undefined`, `''` and `0` are falsy,
objects and arrays (even empty ones) are truthy. -/
def truthy : JVal → Bool
  | .jnull => false
  | .jstr s => s ≠ ""
  | .jnum n => n ≠ 0
  | .jobj _ => true
  | .jarr _ => true

/-- Splitting a character list on a separator character, with JS
`String.prototype.split` semantics for a single-character separator:
the empty string yields one empty segment. -/
def splitCharList (sep : Char) : List Char → List (List Char)
  | [] => [[]]
  | c :: cs =>
    let rest := splitCharList sep cs
    if c == sep then [] :: rest
    else
      match rest with
      | r :: rs => (c :: r) :: rs
      | [] => [[c]]

/-- JS `s.split(sep)` for a single-character separator. -/
def splitOnChar (sep : Char) (s : String) : List String :=
  (splitCharList sep s.data).map (fun l => String.mk l)

/-- The numeric value of a decimal digit character. -/
def digitVal (c : Char) : Nat := c.toNat - '0'.toNat

/-- The value of a decimal digit list. -/
def digitsVal (ds : List Char) : Nat :=
  ds.foldl (fun a c => a * 10 + digitVal c) 0

/-- A digit of the given radix (hex also accepts the letters `a`-`f`
in either case). -/
def radixDigit (radix : Nat) (c : Char) : Option Nat :=
  if 48 ≤ c.toNat && c.toNat ≤ 57 && c.toNat - 48 < radix then
    some (c.toNat - 48)
  else if 97 ≤ c.toNat && c.toNat ≤ 102 && radix == 16 then
    some (c.toNat - 97 + 10)
  else if 65 ≤ c.toNat && c.toNat ≤ 70 && radix == 16 then
    some (c.toNat - 65 + 10)
  else none

/-- The value of a nonempty digit list in the given radix; `none` when
the list is empty or contains a non-digit. -/
def radixVal (radix : Nat) : List Char → Option Nat
  | [] => none
  | ds =>
    ds.foldl
      (fun acc c =>
        match acc, radixDigit radix c with
        | some n, some d => some (n * radix + d)
        | _, _ => none)
      (some 0)

/-- A JS number as the ETag age computation distinguishes them: NaN,
the two infinities, or a finite value.  Finite values are modelled as
exact rationals; the source's binary64 rounding is ignored (it can move
a comparison only within one ulp, and an overflow to `Infinity` never
changes the direction of the age comparison). -/
inductive JsNum where
  | nan
  | inf
  | negInf
  | num (q : ℚ)
deriving DecidableEq

/-- The JS `StrWhiteSpace` characters trimmed by `ToNumber` on a
string: tab, line terminators, space, and the Unicode space
separators. -/
def jsWhitespace (c : Char) : Bool :=
  c.toNat == 9 || c.toNat == 10 || c.toNat == 11 || c.toNat == 12 ||
  c.toNat == 13 || c.toNat == 32 || c.toNat == 0xA0 ||
  c.toNat == 0x1680 || (0x2000 ≤ c.toNat && c.toNat ≤ 0x200A) ||
  c.toNat == 0x2028 || c.toNat == 0x2029 || c.toNat == 0x202F ||
  c.toNat == 0x205F || c.toNat == 0x3000 || c.toNat == 0xFEFF

/-- Strip leading and trailing JS whitespace. -/
def trimJs (cs : List Char) : List Char :=
  ((cs.dropWhile jsWhitespace).reverse.dropWhile jsWhitespace).reverse

/-- Ten raised to an integer power, as an exact rational. -/
def pow10 (k : Int) : ℚ :=
  if 0 ≤ k then (10 : ℚ) ^ k.toNat else ((10 : ℚ) ^ (-k).toNat)⁻¹

/-- The exponent part of a decimal literal, after the `e`/`E`: an
optional sign followed by at least one digit, with nothing after it. -/
def parseExpPart : List Char → Option Int
  | [] => none
  | cs =>
    let sgn : Int :=
      match cs with
      | '-' :: _ => -1
      | _ => 1
    let ds :=
      match cs with
      | '+' :: r => r
      | '-' :: r => r
      | r => r
    if !ds.isEmpty && ds.all Char.isDigit then
      some (sgn * (digitsVal ds : Int))
    else none

/-- A JS `StrUnsignedDecimalLiteral`: `digits [. digits] [exp]` or
`. digits [exp]` where `exp` is `e`/`E`, an optional sign and digits;
evaluated exactly. -/
def parseDecimal (cs : List Char) : Option ℚ :=
  let intDs := cs.takeWhile Char.isDigit
  let rest1 := cs.dropWhile Char.isDigit
  match rest1 with
  | [] => if intDs.isEmpty then none else some (digitsVal intDs : ℚ)
  | '.' :: rest2 =>
    let fracDs := rest2.takeWhile Char.isDigit
    let rest3 := rest2.dropWhile Char.isDigit
    if intDs.isEmpty && fracDs.isEmpty then none
    else
      let base : ℚ :=
        (digitsVal intDs : ℚ) + (digitsVal fracDs : ℚ) / ((10 : ℚ) ^ fracDs.length)
      match rest3 with
      | [] => some base
      | c :: rest4 =>
        if c == 'e' || c == 'E' then
          (parseExpPart rest4).map (fun k => base * pow10 k)
        else none
  | c :: rest2 =>
    if (c == 'e' || c == 'E') && !intDs.isEmpty then
      (parseExpPart rest2).map (fun k => (digitsVal intDs : ℚ) * pow10 k)
    else none

/-- JS `ToNumber` on a string, as the subtraction
`now - clientETagParts[2]` applies it: trim JS whitespace; an empty
remainder is 0; a signed decimal literal (optional fraction and
exponent) or a signed `Infinity` has its value; an unsigned
`0x`/`0o`/`0b` radix literal has its value; anything else is NaN. -/
def strToNumber (s : String) : JsNum :=
  match trimJs s.data with
  | [] => .num 0
  | '0' :: 'x' :: rest =>
    match radixVal 16 rest with
    | some n => .num (n : ℚ)
    | none => .nan
  | '0' :: 'X' :: rest =>
    match radixVal 16 rest with
    | some n => .num (n : ℚ)
    | none => .nan
  | '0' :: 'o' :: rest =>
    match radixVal 8 rest with
    | some n => .num (n : ℚ)
    | none => .nan
  | '0' :: 'O' :: rest =>
    match radixVal 8 rest with
    | some n => .num (n : ℚ)
    | none => .nan
  | '0' :: 'b' :: rest =>
    match radixVal 2 rest with
    | some n => .num (n : ℚ)
    | none => .nan
  | '0' :: 'B' :: rest =>
    match radixVal 2 rest with
    | some n => .num (n : ℚ)
    | none => .nan
  | cs =>
    let neg :=
      match cs with
      | '-' :: _ => true
      | _ => false
    let body :=
      match cs with
      | '+' :: r => r
      | '-' :: r => r
      | r => r
    if body = "Infinity".data then
      if neg then .negInf else .inf
    else
      match parseDecimal body with
      | some q => .num (if neg then -q else q)
      | none => .nan

/-- `ToNumber` of a possibly-missing string (a missing segment is
`undefined`, whose number is NaN). -/
def toNumber : Option String → JsNum
  | some s => strToNumber s
  | none => .nan

/-- `now - t` for a finite integral `now`. -/
def jsSub (a : Int) : JsNum → JsNum
  | .nan => .nan
  | .inf => .negInf
  | .negInf => .inf
  | .num q => .num ((a : ℚ) - q)

/-- Division of a JS number by 1000: NaN and the infinities are
preserved. -/
def jsDiv1000 : JsNum → JsNum
  | .num q => .num (q / 1000)
  | x => x

/-- The comparison `x > maxAge` for a finite integral `maxAge`: false
for NaN and `-Infinity`, true for `Infinity`. -/
def jsGtInt : JsNum → Int → Bool
  | .nan, _ => false
  | .inf, _ => true
  | .negInf, _ => false
  | .num q, m => decide (q > (m : ℚ))

theorem sizeOf_getField_le (v : JVal) (k : String) :
    sizeOf (getField v k) ≤ sizeOf v := by
  cases v with
  | jobj fs =>
    simp only [getField]
    cases h : fs.find? (fun p => p.1 == k) with
    | none => simp [JVal.jnull.sizeOf_spec, JVal.jobj.sizeOf_spec]
    | some p =>
      have hmem : p ∈ fs := List.mem_of_find?_eq_some h
      have h1 : sizeOf p < sizeOf fs := List.sizeOf_lt_of_mem hmem
      have h2 : sizeOf p.2 < sizeOf p := by
        obtain ⟨a, b⟩ := p
        simp [Prod.mk.sizeOf_spec]
      simp only [JVal.jobj.sizeOf_spec]
      omega
  | jnull => simp [getField]
  | jstr s => simp [getField, JVal.jnull.sizeOf_spec, JVal.jstr.sizeOf_spec]
  | jnum n => simp [getField, JVal.jnull.sizeOf_spec, JVal.jnum.sizeOf_spec]
  | jarr xs => simp [getField, JVal.jnull.sizeOf_spec, JVal.jarr.sizeOf_spec]

/-! ### Error normalization (`getResponse` inside `routeSendError`) -/

/-- The external error taxonomy `self.apos.http.errors`: a map from error
name to HTTP status (§6 "Error-kind registry"). -/
abbrev Tax : Type := List (String × Nat)

/-- Lookup `self.apos.http.errors[s]`. -/
def taxStatus (tax : Tax) (s : String) : Option Nat :=
  (tax.find? (fun p => p.1 == s)).map (fun p => p.2)

/-- The guard `err && err.name && self.apos.http.errors[err.name]` of
`getResponse`: yields the name and mapped status when the error is
truthy, carries a truthy `name`, and the taxonomy maps that name to a
truthy status.  Only string names can match the taxonomy's (word) keys. -/
def knownCode (tax : Tax) (err : JVal) : Option (String × Nat) :=
  if truthy err then
    match getField err "name" with
    | .jstr s =>
      if s == "" then none
      else
        match taxStatus tax s with
        | some c => if c == 0 then none else some (s, c)
        | none => none
    | _ => none
  else none

/-- The record built and returned by `getResponse`:
`{ name, data, code, path, fn, message }`.  The `fn` field (the log
function, `apos.util.info` for known errors and `apos.util.error` for
unknown ones) is modelled by the flag `fnIsError`. -/
structure Resp where
  name : String
  data : JVal
  code : Nat
  path : JVal
  fnIsError : Bool
  message : JVal

/-- The `else` branch of `getResponse`: an unrecognized error is
classified unknown (`code = 500`, fixed name and message, empty data);
only `path` is taken from the original error. -/
def unknownResp (err : JVal) : Resp :=
  { name := "error", data := .jobj [], code := 500,
    path := getField err "path", fnIsError := true,
    message := .jstr "An error occurred." }

/-- The expression `err.data || {}` in the known branch of `getResponse`. -/
def dataOf (err : JVal) : JVal :=
  if truthy (getField err "data") then getField err "data" else .jobj []

/-- The projection applied to each sub-error response during the
cleansing step of `getResponse`:
`{ name, code, message, data, path }` (the `fn` field is omitted). -/
def respEntry (r : Resp) : JVal :=
  .jobj [("name", .jstr r.name), ("code", .jnum (r.code : Int)),
         ("message", r.message), ("data", r.data), ("path", r.path)]

/-- The function `getResponse(err)` from `routeSendError`: classify the error as
known (taxonomy-mapped status, own message/data/path) or unknown
(status 500, fixed name/message, empty data), then — when the resolved
name is `invalid` and `data.errors` is an array — replace `data.errors`
by the sub-errors mapped through `getResponse` and projected through
`respEntry` ("sub-errors must get the same cleansing treatment"). -/
def getResponse (tax : Tax) (err : JVal) : Resp :=
  match knownCode tax err with
  | none => unknownResp err
  | some (s, c) =>
    let d := dataOf err
    let d' :=
      if s == "invalid" then
        match hd : getField d "errors" with
        | .jarr es =>
          setField d "errors"
            (.jarr (es.attach.map (fun x => respEntry (getResponse tax x.1))))
        | _ => d
      else d
    { name := s, data := d', code := c, path := getField err "path",
      fnIsError := false, message := getField err "message" }
termination_by sizeOf err
decreasing_by
  have hd' : getField (dataOf err) "errors" = JVal.jarr es := hd
  have hee : sizeOf x.1 < sizeOf (JVal.jarr es) := by
    have := List.sizeOf_lt_of_mem x.2
    simp only [JVal.jarr.sizeOf_spec]
    omega
  by_cases ht : truthy (getField err "data") = true
  · have hde : sizeOf (JVal.jarr es) ≤ sizeOf (dataOf err) := by
      rw [← hd']; exact sizeOf_getField_le (dataOf err) "errors"
    have hdd : sizeOf (dataOf err) ≤ sizeOf err := by
      unfold dataOf; rw [if_pos ht]; exact sizeOf_getField_le err "data"
    omega
  · exfalso
    unfold dataOf at hd'
    rw [if_neg ht] at hd'
    simp [getField] at hd'

theorem getResponse_of_unknown (tax : Tax) (err : JVal)
    (h : knownCode tax err = none) : getResponse tax err = unknownResp err := by
  rw [getResponse, h]

theorem getResponse_of_known (tax : Tax) (err : JVal) (s : String) (c : Nat)
    (hk : knownCode tax err = some (s, c)) (hs : (s == "invalid") = false) :
    getResponse tax err =
      { name := s, data := dataOf err, code := c, path := getField err "path",
        fnIsError := false, message := getField err "message" } := by
  rw [getResponse, hk]
  simp [hs]

theorem getResponse_of_invalid (tax : Tax) (err : JVal) (c : Nat) (es : List JVal)
    (hk : knownCode tax err = some ("invalid", c))
    (hd : getField (dataOf err) "errors" = .jarr es) :
    getResponse tax err =
      { name := "invalid",
        data := setField (dataOf err) "errors"
          (.jarr (es.map (fun e => respEntry (getResponse tax e)))),
        code := c, path := getField err "path", fnIsError := false,
        message := getField err "message" } := by
  rw [getResponse, hk]
  simp only [beq_self_eq_true, if_true]
  rw [← List.attach_map_val es (fun e => respEntry (getResponse tax e))]
  split
  · rename_i es' hd'
    rw [hd] at hd'
    cases hd'
    rfl
  · rename_i hne
    exact absurd hd (hne es)

/-! ### `routeSendError`: logging and response effects -/

/-- Modelled from the spec: `self.apos.error(name, data)` (the error
module is not under `src/`) builds "a synthetic error named
`\"invalid\"`" carrying the given `data`; per the error module's
convention the message of such a synthetic error defaults to its name. -/
def aposError (name : String) (data : JVal) : JVal :=
  .jobj [("name", .jstr name), ("message", .jstr name), ("data", data)]

/-- The structured fields passed to `self.logError` by `logError` inside
`routeSendError`: `{ name, status, stack, cause, errorPath, data }`. -/
structure LogFields where
  name : String
  status : Nat
  stack : List String
  cause : JVal
  errorPath : JVal
  data : JVal

/-- The expression `(error.stack || '').split('\n').slice(1).map(line => line.trim())`:
the stack trace with its top line dropped and the remaining lines
trimmed.  An absent (or empty) stack yields `[]`; error stacks are
strings. -/
def stackLines : JVal → List String
  | .jstr s => ((splitOnChar '\n' s).drop 1).map (fun l => l.trim)
  | _ => []

/-- One observable side effect of the request-handling code, in program
order: a structured log emission, the fallback `console.error` used when
structured logging itself throws, a response header assignment, the
response status assignment, and the response body send. -/
inductive Effect where
  | log (key : String) (message : JVal) (fields : LogFields)
  | fallbackLog (message : String)
  | header (key value : String)
  | status (code : Nat)
  | send (body : JVal)

/-- The `logError` helper of `routeSendError`.  `err` is the (possibly
synthetic) error being sent, `response` the resolved classification.
The event key is `api-error` for status 500 and `api-error-<name>`
otherwise; on 500 the logged message is the error's real message, not
the generic browser-facing one.  A throw from the structured logger
(modelled by `logCrash = some m`, the thrown message) is caught and
reported through `console.error` with a `Structured logging error: `
tag, so the caller can still send the response. -/
def logError (response : Resp) (err : JVal) (logCrash : Option String) :
    List Effect :=
  let typeTrail := if response.code == 500 then "" else "-" ++ response.name
  let msg := if response.code == 500 then getField err "message"
             else response.message
  match logCrash with
  | none =>
    [.log ("api-error" ++ typeTrail) msg
      { name := response.name, status := response.code,
        stack := stackLines (getField err "stack"),
        cause := getField err "cause", errorPath := response.path,
        data := response.data }]
  | some m => [.fallbackLog ("Structured logging error: " ++ m)]

/-- What `routeSendError` does for a valid `req`: the log effects run
first (`pre`), then `req.res.status(code)` and `req.res.send(body)`. -/
structure SendResult where
  pre : List Effect
  status : Nat
  body : JVal

/-- The effect trace of a `SendResult` in program order: logging
happens strictly before the response status and body are sent. -/
def sendTrace (r : SendResult) : List Effect :=
  r.pre ++ [.status r.status, .send r.body]

/-- One entry of the array branch of `routeSendError`: the element run
through `getResponse` and projected to
`{ name, message, path, code, data }` (with `path` read off the
original element). -/
def outerEntry (tax : Tax) (e : JVal) : JVal :=
  let response := getResponse tax e
  .jobj [("name", .jstr response.name), ("message", response.message),
         ("path", getField e "path"),
         ("code", .jnum (response.code : Int)),
         ("data", response.data)]

/-- The `Array.isArray(err)` branch of `routeSendError`: an array error
is replaced by a synthetic `invalid` error whose `data.errors` is the
array mapped through `outerEntry`; any other error is kept as is. -/
def arrayToInvalid (tax : Tax) (err : JVal) : JVal :=
  match err with
  | .jarr es =>
    aposError "invalid" (.jobj [("errors", .jarr (es.map (outerEntry tax)))])
  | e => e

/-- The body of `routeSendError(req, err)` for a valid `req` (the
defensive early return for a missing `req` is modelled by
`routeSendErrorWithGuard`).  The possibly array-valued error is
normalized by `arrayToInvalid`, classified by `getResponse`, logged by
`logError`, and sent as status `response.code` with body
`{ name, data, message }`. -/
def routeSendError (tax : Tax) (err : JVal) (logCrash : Option String) :
    SendResult :=
  let err := arrayToInvalid tax err
  let response := getResponse tax err
  { pre := logError response err logCrash,
    status := response.code,
    body := .jobj [("name", .jstr response.name), ("data", response.data),
                   ("message", response.message)] }

/-- The full `routeSendError`, including the guard: when `req` (or
`req.res`) is missing, it only reports the misuse through
`apos.util.error` and returns without sending any response. -/
def routeSendErrorWithGuard (tax : Tax) (hasReq : Bool) (err : JVal)
    (logCrash : Option String) : Option SendResult :=
  if hasReq then some (routeSendError tax err logCrash) else none

/-! ### Requests, handlers and the api route wrapper -/

/-- A document as far as the cache controller reads it.
`cacheInvalidatedAt` is a `Date` stored on the document, modelled by its
millisecond timestamp; a `Date` object is always truthy in JS, so the
truthiness test `!context.cacheInvalidatedAt` is exactly the `Option`
being `none`. -/
structure Doc where
  cacheInvalidatedAt : Option Int

/-- The parts of an Express request that the embedded code reads.
`user` models the presence of `req.user`; `resStatusCode` is the pending
`req.res.statusCode`; `session` is `req.session` as its ordered entries
(`Object.entries`); `ifNoneMatch` is `req.headers['if-none-match']`
(`none` when absent); `dataPiece`/`dataPage` are `req.data.piece` and
`req.data.page`; `paramsId` is `req.params._id`. -/
structure Req where
  method : String
  user : Bool
  paramsId : String
  session : List (String × JVal)
  resStatusCode : Nat
  ifNoneMatch : Option String
  dataPiece : Option Doc
  dataPage : Option Doc

/-- The result of awaiting a handler: a resolved value or a thrown
error. -/
inductive Outcome where
  | ok (v : JVal)
  | thrown (e : JVal)

/-- A route handler: either one of the module's original handler
functions (identified by an index into the environment) or the
rewrite `async req => route(req, req.params._id)` produced by `wrapId`
in `compileRestApiRoutesToApiRoutes`. -/
inductive Handler where
  | base (i : Nat)
  | idWrapped (h : Handler)

/-- An environment giving the behavior of the module's original
handlers: handler `i` applied to a request and an optional second
argument. -/
abbrev HandlerEnv : Type := Nat → Req → Option String → Outcome

/-- Invocation of a handler.  The `wrapId` rewrite ignores any second
argument of its own and invokes the original handler with the extracted
`req.params._id` as its second argument. -/
def runHandler (env : HandlerEnv) : Handler → Req → Option String → Outcome
  | .base i, req, arg => env i req arg
  | .idWrapped h, req, _ => runHandler env h req (some req.paramsId)

/-- The wrapper `routeWrappers.apiRoutes(name, fn)` applied to a
request: await `fn(req)`; on success, set `Cache-Control: no-store`
when the method is GET and the request is authenticated, then respond
with status 200 and the raw resolved value as the body; on a thrown
error, delegate to `routeSendError`.  (The `name` parameter is unused
by this wrapper, as in the source.) -/
def routeWrappers_apiRoutes (tax : Tax) (env : HandlerEnv) (name : String)
    (fn : Handler) (req : Req) (logCrash : Option String) : List Effect :=
  match runHandler env fn req none with
  | .ok result =>
    (if req.method == "GET" && req.user
     then [Effect.header "Cache-Control" "no-store"] else [])
    ++ [Effect.status 200, Effect.send result]
  | .thrown e => sendTrace (routeSendError tax e logCrash)

/-! ### Cache controller -/

/-- Lodash `_.isEmpty`: true for `null`/`undefined`, empty objects,
arrays and strings, and for primitives such as numbers. -/
def isEmptyJs : JVal → Bool
  | .jnull => true
  | .jstr s => s == ""
  | .jnum _ => true
  | .jobj fs => fs.isEmpty
  | .jarr xs => xs.isEmpty

/-- `isSafeToCache(req)`: false for an authenticated request or a
pending response status of 400 or more; otherwise true iff every
session entry is the `cookie` bookkeeping key, or is `flash` or
`passport` holding an empty value. -/
def isSafeToCache (req : Req) : Bool :=
  if req.user then false
  else if 400 ≤ req.resStatusCode then false
  else
    req.session.all (fun kv =>
      kv.1 == "cookie"
      || ((kv.1 == "flash" || kv.1 == "passport") && isEmptyJs kv.2))

/-- The context chosen by `generateETagParts`:
`doc || req.data.piece || req.data.page` (documents are objects, hence
truthy whenever present). -/
def etagContext (req : Req) (doc : Option Doc) : Option Doc :=
  match doc with
  | some d => some d
  | none =>
    match req.dataPiece with
    | some p => some p
    | none => req.dataPage

/-- `generateETagParts(req, doc)`: `null` when the chosen context is
absent or has no `cacheInvalidatedAt`; otherwise the pair of the asset
resolver's release id (§6 collaborator, passed in as `releaseId`) and
the invalidation time as a decimal millisecond string
(`new Date(v).getTime().toString()`). -/
def generateETagParts (releaseId : String) (req : Req) (doc : Option Doc) :
    Option (List String) :=
  match etagContext req doc with
  | none => none
  | some context =>
    match context.cacheInvalidatedAt with
    | none => none
    | some t => some [releaseId, toString t]

/-- `setETag(req, eTagParts)` sets the `ETag` header to the parts joined
by `:`; this def returns the header value. -/
def setETag (eTagParts : List String) : String :=
  String.intercalate ":" eTagParts

/-- The client's ETag segments inside `checkETag`:
`req.headers['if-none-match'] ? req.headers['if-none-match'].split(':') : []`
(a missing or empty header is falsy and yields no segments). -/
def clientETagPartsOf (req : Req) : List String :=
  match req.ifNoneMatch with
  | some s => if s == "" then [] else splitOnChar ':' s
  | none => []

/-- The outcome of `checkETag`: the returned hit/miss flag and the
`ETag` header value set by `setETag` (`none` when no header is set). -/
structure ETagOutcome where
  hit : Bool
  etagSet : Option String

/-- `checkETag(req, doc, maxAge)`.  `now` is `Date.now()` in
milliseconds and `maxAge` is in seconds; the source computes
`clientETagAge = (now - clientETagParts[2]) / 1000` — the subtraction
applies full JS `ToNumber` coercion to the third client segment
(`strToNumber`; `undefined` is NaN) — and takes the stale branch when
`clientETagAge > maxAge`, a comparison that is false whenever the age
is NaN. -/
def checkETag (releaseId : String) (now : Int) (req : Req) (doc : Option Doc)
    (maxAge : Int) : ETagOutcome :=
  match generateETagParts releaseId req doc with
  | none => { hit := false, etagSet := none }
  | some eTagParts =>
    if !isSafeToCache req then { hit := false, etagSet := none }
    else
      let clientETagParts : List String := clientETagPartsOf req
      let doesETagMatch :=
        clientETagParts[0]? == eTagParts[0]?
        && clientETagParts[1]? == eTagParts[1]?
      let clientETagAge :=
        jsDiv1000 (jsSub now (toNumber clientETagParts[2]?))
      if !doesETagMatch || jsGtInt clientETagAge maxAge then
        { hit := false, etagSet := some (setETag (eTagParts ++ [toString now])) }
      else
        { hit := true, etagSet := some (setETag clientETagParts) }

/-! ### Route URL derivation -/

/-- Modelled from the spec: `apos.util.cssName` (the util module is not
under `src/`) converts an identifier-case (camelCase) name to
hyphenated case, e.g. `saveArea` becomes `save-area`: a hyphen is
inserted before each uppercase letter, which is lowercased. -/
def cssName (s : String) : String :=
  String.mk (s.data.foldr
    (fun c acc => if c.isUpper then '-' :: c.toLower :: acc else c :: acc) [])

/-- The test `name.substring(0, 1) === '/'`. -/
def startsWithSlash (name : String) : Bool :=
  match name.data with
  | '/' :: _ => true
  | _ => false

/-- The test `name.match(/[:/*])/`: the name contains a `:`, `/` or `*`
character. -/
def hasUrlChar (name : String) : Bool :=
  name.data.any (fun c => c == ':' || c == '/' || c == '*')

/-- `getRouteUrl(name)`: a name beginning with `/` is a site-relative
URL used verbatim; otherwise a name containing `:`, `/` or `*` is
module-relative and already URL-shaped, appended to the module's
action prefix (`self.action`); otherwise the name is converted to
kebab case and appended to the action prefix. -/
def getRouteUrl (action : String) (name : String) : String :=
  if startsWithSlash name then name
  else if hasUrlChar name then action ++ "/" ++ name
  else action ++ "/" ++ cssName name

/-! ### Route compilation -/

/-- The value of one declared route: a single handler function or an
array whose last element is the terminal handler and whose other
elements are middleware. -/
inductive RouteVal where
  | fn (h : Handler)
  | chain (mids : List Handler) (terminal : Handler)

/-- One entry of a route section: either the function/array itself, or
an object `{ before, route }` carrying an ordering hint. -/
inductive RouteConfig where
  | direct (v : RouteVal)
  | configured (before : Option String) (v : RouteVal)

/-- The route value of a config (`config.route` for object configs). -/
def routeValOf : RouteConfig → RouteVal
  | .direct v => v
  | .configured _ v => v

/-- The `before` hint of a config (`config.before`, `undefined` for
plain functions and arrays). -/
def beforeOf : RouteConfig → Option String
  | .direct _ => none
  | .configured b _ => b

/-- A terminal handler after section wrapping: unwrapped (the `routes`
section has no wrapper), or wrapped by `routeWrappers.apiRoutes` or
`routeWrappers.renderRoutes` with the route name. -/
inductive WrappedHandler where
  | raw (h : Handler)
  | api (name : String) (h : Handler)
  | render (name : String) (h : Handler)

/-- The route function pushed onto `self._routes`: the wrapped single
function, or the closure that runs the middleware chain and then the
wrapped terminal. -/
inductive CompiledVal where
  | single (w : WrappedHandler)
  | chainRun (mids : List Handler) (terminal : WrappedHandler)

/-- One entry of `self._routes`: `{ before, method, url, route }`. -/
structure CompiledRoute where
  before : Option String
  method : String
  url : String
  route : CompiledVal

/-- A route section (`self.routes`, `self.renderRoutes`,
`self.apiRoutes`): an object keyed by HTTP method, each value an object
keyed by route name. -/
abbrev SectionTbl : Type := List (String × List (String × RouteConfig))

/-- The three compiled route sections. -/
inductive SectionKind where
  | routes
  | renderRoutes
  | apiRoutes

/-- `self.routeWrappers[section]`: the `routes` section has no wrapper;
`renderRoutes` and `apiRoutes` wrap the terminal handler with the route
name. -/
def wrapperOf : SectionKind → Option (String → Handler → WrappedHandler)
  | .routes => none
  | .renderRoutes => some (fun n h => .render n h)
  | .apiRoutes => some (fun n h => .api n h)

/-- The REST shorthand section `self.restApiRoutes`. -/
structure RestApiRoutes where
  getAll : Option RouteVal
  getOne : Option RouteVal
  post : Option RouteVal
  put : Option RouteVal
  patch : Option RouteVal
  delete : Option RouteVal

/-- The compile-time state of one module: its action prefix, declared
sections, and the growing `self._routes` table. -/
structure ModuleState where
  action : String
  routes : SectionTbl
  renderRoutes : SectionTbl
  apiRoutes : SectionTbl
  restApiRoutes : RestApiRoutes
  _routes : List CompiledRoute

/-- The declared section of the given kind. -/
def sectionOf (m : ModuleState) : SectionKind → SectionTbl
  | .routes => m.routes
  | .renderRoutes => m.renderRoutes
  | .apiRoutes => m.apiRoutes

/-- JS object property assignment on an association list: overwrite the
(unique) existing key in place, else append. -/
def upsert {α : Type} : List (String × α) → String → α → List (String × α)
  | [], k, v => [(k, v)]
  | p :: ps, k, v => if p.1 == k then (k, v) :: ps else p :: upsert ps k v

/-- `self.apiRoutes[method] = self.apiRoutes[method] || {};`
`self.apiRoutes[method][name] = cfg` — create the method sub-object if
missing, then assign the route name. -/
def setApiRoute : SectionTbl → String → String → RouteConfig → SectionTbl
  | [], method, name, cfg => [(method, [(name, cfg)])]
  | p :: ps, method, name, cfg =>
    if p.1 == method then (p.1, upsert p.2 name cfg) :: ps
    else p :: setApiRoute ps method name cfg

/-- The `wrapId` helper of `compileRestApiRoutesToApiRoutes`: on an
array, keep the middleware and rewrite only the last (terminal)
function; on a function, produce `async req => route(req,
req.params._id)`. -/
def wrapId : RouteVal → RouteVal
  | .fn h => .fn (.idWrapped h)
  | .chain mids terminal => .chain mids (.idWrapped terminal)

/-- `compileRestApiRoutesToApiRoutes`: copy `getAll` and `post` into
`apiRoutes` under the route name `''`, and `getOne`, `delete`, `patch`
and `put` (in source order) under `':_id'` with the terminal handler
rewritten through `wrapId`. -/
def compileRestApiRoutesToApiRoutes (m : ModuleState) : ModuleState :=
  let api := m.apiRoutes
  let api := match m.restApiRoutes.getAll with
    | some r => setApiRoute api "get" "" (.direct r)
    | none => api
  let api := match m.restApiRoutes.getOne with
    | some r => setApiRoute api "get" ":_id" (.direct (wrapId r))
    | none => api
  let api := match m.restApiRoutes.delete with
    | some r => setApiRoute api "delete" ":_id" (.direct (wrapId r))
    | none => api
  let api := match m.restApiRoutes.patch with
    | some r => setApiRoute api "patch" ":_id" (.direct (wrapId r))
    | none => api
  let api := match m.restApiRoutes.put with
    | some r => setApiRoute api "put" ":_id" (.direct (wrapId r))
    | none => api
  let api := match m.restApiRoutes.post with
    | some r => setApiRoute api "post" "" (.direct r)
    | none => api
  { m with apiRoutes := api }

/-- Compilation of one declared route of a section into the
`self._routes` entry `{ before, method, url, route }`, wrapping the
terminal handler with the section's wrapper when one exists. -/
def compileOne (action : String) (k : SectionKind) (method name : String)
    (config : RouteConfig) : CompiledRoute :=
  let url := getRouteUrl action name
  let wrap : Handler → WrappedHandler :=
    match wrapperOf k with
    | some w => w name
    | none => fun h => .raw h
  match routeValOf config with
  | .fn h =>
    { before := beforeOf config, method := method, url := url,
      route := .single (wrap h) }
  | .chain mids terminal =>
    { before := beforeOf config, method := method, url := url,
      route := .chainRun mids (wrap terminal) }

/-- The entries appended to `self._routes` by `compileSectionRoutes`
for one section table, in declaration order (methods in insertion
order, then names in insertion order). -/
def sectionCompiled (action : String) (k : SectionKind) (tbl : SectionTbl) :
    List CompiledRoute :=
  tbl.flatMap (fun mr => mr.2.map (fun nc => compileOne action k mr.1 nc.1 nc.2))

/-- `compileSectionRoutes(section)`: push every declared route of the
section onto `self._routes`. -/
def compileSectionRoutes (m : ModuleState) (k : SectionKind) : ModuleState :=
  { m with _routes := m._routes ++ sectionCompiled m.action k (sectionOf m k) }

/-- The `@apostrophecms/express:compileRoutes` handler
`compileAllRoutes`: merge the REST shorthand into `apiRoutes`, then
compile `routes`, then `renderRoutes`, then `apiRoutes` last. -/
def compileAllRoutes (m : ModuleState) : ModuleState :=
  let m := compileRestApiRoutesToApiRoutes m
  let m := compileSectionRoutes m .routes
  let m := compileSectionRoutes m .renderRoutes
  let m := compileSectionRoutes m .apiRoutes
  m

/-! ### The spec's single-error normalization (for the composite rule) -/

/-- The unknown case of the spec's single-error normalization: name
`error`, code 500, the fixed generic message, empty data; only the
error's own path survives. -/
def specUnknownEntry (e : JVal) : JVal :=
  .jobj [("name", .jstr "error"), ("code", .jnum 500),
         ("message", .jstr "An error occurred."), ("data", .jobj []),
         ("path", getField e "path")]

/-- The spec's single-error normalization, written from the spec's
words (§4.4 step 2): an error carrying a name present in the taxonomy
mapping keeps its own message, data (or an empty structure) and path
with the taxonomy-mapped code; any other error becomes name `error`,
code 500, the generic message and empty data.  Entries are shaped
`{ name, code, message, data, path }` — no `fn` or other log-only
fields. -/
def specSingleEntry (tax : Tax) (e : JVal) : JVal :=
  match getField e "name" with
  | .jstr s =>
    match taxStatus tax s with
    | some c =>
      .jobj [("name", .jstr s), ("code", .jnum (c : Int)),
             ("message", getField e "message"),
             ("data", dataOf e), ("path", getField e "path")]
    | none => specUnknownEntry e
  | _ => specUnknownEntry e

/-- Whether an error object carries the literal name `invalid` (the
composite-envelope name; the spec expects no nested composite
sub-errors inside a sequence). -/
def nameIsInvalid (e : JVal) : Bool :=
  match getField e "name" with
  | .jstr s => s == "invalid"
  | _ => false

/-! ### Helper lemmas -/

theorem truthy_of_getField_jstr (e : JVal) (k : String) (s : String)
    (h : getField e k = .jstr s) : truthy e = true := by
  cases e with
  | jobj fs => rfl
  | jnull => simp [getField] at h
  | jstr t => simp [getField] at h
  | jnum n => simp [getField] at h
  | jarr xs => simp [getField] at h

theorem truthy_dataOf (e : JVal) : truthy (dataOf e) = true := by
  unfold dataOf
  split
  · assumption
  · rfl

theorem taxStatus_ne_zero (tax : Tax) (s : String) (c : Nat)
    (h : taxStatus tax s = some c)
    (hNZ : tax.all (fun p => p.2 != 0) = true) : (c == 0) = false := by
  unfold taxStatus at h
  cases hf : tax.find? (fun p => p.1 == s) with
  | none => rw [hf] at h; exact Option.noConfusion h
  | some p =>
    rw [hf] at h
    simp only [Option.map_some'] at h
    cases h
    have hmem : p ∈ tax := List.mem_of_find?_eq_some hf
    have := (List.all_eq_true.mp hNZ) p hmem
    simpa using this

theorem knownCode_some_intro (tax : Tax) (e : JVal) (s : String) (c : Nat)
    (hn : getField e "name" = .jstr s) (hs : (s == "") = false)
    (ht : taxStatus tax s = some c) (hc : (c == 0) = false) :
    knownCode tax e = some (s, c) := by
  unfold knownCode
  rw [if_pos (truthy_of_getField_jstr e "name" s hn), hn]
  simp [hs, ht, hc]

theorem knownCode_none_of_taxStatus_none (tax : Tax) (e : JVal)
    (h : ∀ s, getField e "name" = .jstr s → taxStatus tax s = none) :
    knownCode tax e = none := by
  unfold knownCode
  by_cases ht : truthy e = true
  · rw [if_pos ht]
    cases hn : getField e "name" with
    | jstr s =>
      by_cases hs : (s == "") = true
      · simp [hs]
      · simp [hs, h s hn]
    | jnull => rfl
    | jnum n => rfl
    | jobj fs => rfl
    | jarr xs => rfl
  · rw [if_neg ht]

theorem entry_unknown_case (tax : Tax) (e : JVal)
    (hErr : taxStatus tax "error" = none)
    (hk : knownCode tax e = none) :
    respEntry (getResponse tax (outerEntry tax e)) = specUnknownEntry e := by
  have h1 : getResponse tax e = unknownResp e := getResponse_of_unknown tax e hk
  have h2 : outerEntry tax e =
      .jobj [("name", .jstr "error"), ("message", .jstr "An error occurred."),
             ("path", getField e "path"), ("code", .jnum 500),
             ("data", .jobj [])] := by
    unfold outerEntry
    rw [h1]
    rfl
  rw [h2]
  have hk2 : knownCode tax
      (.jobj [("name", .jstr "error"), ("message", .jstr "An error occurred."),
              ("path", getField e "path"), ("code", .jnum 500),
              ("data", .jobj [])]) = none := by
    apply knownCode_none_of_taxStatus_none
    intro s hn
    have h3 : JVal.jstr "error" = JVal.jstr s := hn
    cases h3
    exact hErr
  rw [getResponse_of_unknown _ _ hk2]
  rfl

theorem entry_known_case (tax : Tax) (e : JVal) (s : String) (c : Nat)
    (hn : getField e "name" = .jstr s)
    (hs0 : (s == "") = false) (hsInv : (s == "invalid") = false)
    (hts : taxStatus tax s = some c) (hc : (c == 0) = false) :
    respEntry (getResponse tax (outerEntry tax e)) =
      .jobj [("name", .jstr s), ("code", .jnum (c : Int)),
             ("message", getField e "message"),
             ("data", dataOf e), ("path", getField e "path")] := by
  have hk : knownCode tax e = some (s, c) :=
    knownCode_some_intro tax e s c hn hs0 hts hc
  have h1 : getResponse tax e =
      { name := s, data := dataOf e, code := c, path := getField e "path",
        fnIsError := false, message := getField e "message" } :=
    getResponse_of_known tax e s c hk hsInv
  have h2 : outerEntry tax e =
      .jobj [("name", .jstr s), ("message", getField e "message"),
             ("path", getField e "path"), ("code", .jnum (c : Int)),
             ("data", dataOf e)] := by
    unfold outerEntry
    rw [h1]
  rw [h2]
  have hn2 : getField
      (.jobj [("name", .jstr s), ("message", getField e "message"),
              ("path", getField e "path"), ("code", .jnum (c : Int)),
              ("data", dataOf e)]) "name" = .jstr s := rfl
  have hk2 := knownCode_some_intro tax _ s c hn2 hs0 hts hc
  have hdo : dataOf
      (.jobj [("name", .jstr s), ("message", getField e "message"),
              ("path", getField e "path"), ("code", .jnum (c : Int)),
              ("data", dataOf e)]) = dataOf e := by
    show (if truthy (dataOf e) then dataOf e else .jobj []) = dataOf e
    rw [truthy_dataOf e]
    rfl
  have h4 : getResponse tax
      (.jobj [("name", .jstr s), ("message", getField e "message"),
              ("path", getField e "path"), ("code", .jnum (c : Int)),
              ("data", dataOf e)]) =
      { name := s, data := dataOf e, code := c, path := getField e "path",
        fnIsError := false, message := getField e "message" } := by
    rw [getResponse_of_known tax _ s c hk2 hsInv, hdo]
    rfl
  rw [h4]
  rfl

theorem entry_normalizes (tax : Tax) (e : JVal)
    (hErr : taxStatus tax "error" = none)
    (hEmpty : taxStatus tax "" = none)
    (hNZ : tax.all (fun p => p.2 != 0) = true)
    (hFlat : nameIsInvalid e = false) :
    respEntry (getResponse tax (outerEntry tax e)) = specSingleEntry tax e := by
  cases hn : getField e "name" with
  | jstr s =>
    have hsInv : (s == "invalid") = false := by
      unfold nameIsInvalid at hFlat
      rw [hn] at hFlat
      exact hFlat
    by_cases hs0 : (s == "") = true
    · have hseq : s = "" := by simpa using hs0
      subst hseq
      have hk : knownCode tax e = none := by
        unfold knownCode
        rw [if_pos (truthy_of_getField_jstr e "name" "" hn), hn]
        simp
      rw [entry_unknown_case tax e hErr hk]
      simp only [specSingleEntry, hn, hEmpty]
    · simp only [Bool.not_eq_true] at hs0
      cases hts : taxStatus tax s with
      | none =>
        have hk : knownCode tax e = none := by
          unfold knownCode
          rw [if_pos (truthy_of_getField_jstr e "name" s hn), hn]
          simp [hs0, hts]
        rw [entry_unknown_case tax e hErr hk]
        simp only [specSingleEntry, hn, hts]
      | some c =>
        have hc : (c == 0) = false := taxStatus_ne_zero tax s c hts hNZ
        rw [entry_known_case tax e s c hn hs0 hsInv hts hc]
        simp only [specSingleEntry, hn, hts]
  | jnull =>
    have hk : knownCode tax e = none := by
      unfold knownCode
      by_cases ht : truthy e = true
      · rw [if_pos ht, hn]
      · rw [if_neg ht]
    rw [entry_unknown_case tax e hErr hk]
    simp only [specSingleEntry, hn]
  | jnum n =>
    have hk : knownCode tax e = none := by
      unfold knownCode
      by_cases ht : truthy e = true
      · rw [if_pos ht, hn]
      · rw [if_neg ht]
    rw [entry_unknown_case tax e hErr hk]
    simp only [specSingleEntry, hn]
  | jobj fs =>
    have hk : knownCode tax e = none := by
      unfold knownCode
      by_cases ht : truthy e = true
      · rw [if_pos ht, hn]
      · rw [if_neg ht]
    rw [entry_unknown_case tax e hErr hk]
    simp only [specSingleEntry, hn]
  | jarr xs =>
    have hk : knownCode tax e = none := by
      unfold knownCode
      by_cases ht : truthy e = true
      · rw [if_pos ht, hn]
      · rw [if_neg ht]
    rw [entry_unknown_case tax e hErr hk]
    simp only [specSingleEntry, hn]

/-! ### Claim theorems -/

/-- C1: sending an error object whose name is not present in the
taxonomy mapping responds with HTTP status 500 and a body that is
exactly `{ name: "error", data: {}, message: "An error occurred." }`;
the original error's message and other fields never appear in the
response body. -/
theorem C1_unknown_error_response (tax : Tax) (fs : List (String × JVal))
    (lc : Option String)
    (h : ∀ s, getField (.jobj fs) "name" = .jstr s → taxStatus tax s = none) :
    (routeSendError tax (.jobj fs) lc).status = 500 ∧
    (routeSendError tax (.jobj fs) lc).body =
      .jobj [("name", .jstr "error"), ("data", .jobj []),
             ("message", .jstr "An error occurred.")] := by
  have hk : knownCode tax (.jobj fs) = none :=
    knownCode_none_of_taxStatus_none tax _ h
  have hrse : routeSendError tax (.jobj fs) lc =
      { pre := logError (getResponse tax (.jobj fs)) (.jobj fs) lc,
        status := (getResponse tax (.jobj fs)).code,
        body := .jobj [("name", .jstr (getResponse tax (.jobj fs)).name),
                       ("data", (getResponse tax (.jobj fs)).data),
                       ("message", (getResponse tax (.jobj fs)).message)] } := rfl
  have hg := getResponse_of_unknown tax (.jobj fs) hk
  constructor
  · rw [hrse, hg]
    rfl
  · rw [hrse, hg]
    rfl

/-- C1 witness: a concrete error named `weird`, absent from the
taxonomy, is sent as a 500 with the fixed generic body. -/
theorem C1_unknown_error_response_witness :
    (routeSendError [("required", 422)]
      (.jobj [("name", .jstr "weird"), ("message", .jstr "secret")])
      none).status = 500 ∧
    (routeSendError [("required", 422)]
      (.jobj [("name", .jstr "weird"), ("message", .jstr "secret")])
      none).body =
      .jobj [("name", .jstr "error"), ("data", .jobj []),
             ("message", .jstr "An error occurred.")] :=
  C1_unknown_error_response [("required", 422)]
    [("name", .jstr "weird"), ("message", .jstr "secret")] none
    (by
      intro s hn
      have h3 : JVal.jstr "weird" = JVal.jstr s := hn
      cases h3
      rfl)

/-- C2: sending an array of errors produces a single `invalid`
envelope: the status is the taxonomy's status for `invalid` (400 in the
deployed taxonomy), the body name is `invalid`, and `data.errors` is
exactly the input array mapped, in order, through the spec's
single-error normalization (`specSingleEntry`): a known entry keeps
its own message, data and path with the taxonomy-mapped code, an
unknown entry becomes name `error`, code 500, the generic message and
empty data; no entry carries `fn` or other log-only fields.  The
sequence is flattened one level; `hFlat` records the spec's expectation
that no element of the sequence is itself a composite `invalid`
error. -/
theorem C2_array_invalid_envelope (tax : Tax) (es : List JVal)
    (lc : Option String) (cv : Nat)
    (hInv : taxStatus tax "invalid" = some cv)
    (hErr : taxStatus tax "error" = none)
    (hEmpty : taxStatus tax "" = none)
    (hNZ : tax.all (fun p => p.2 != 0) = true)
    (hFlat : ∀ e ∈ es, nameIsInvalid e = false) :
    (routeSendError tax (.jarr es) lc).status = cv ∧
    (routeSendError tax (.jarr es) lc).body =
      .jobj [("name", .jstr "invalid"),
             ("data", .jobj [("errors", .jarr (es.map (specSingleEntry tax)))]),
             ("message", .jstr "invalid")] := by
  have hc : (cv == 0) = false := taxStatus_ne_zero tax "invalid" cv hInv hNZ
  have herr' : arrayToInvalid tax (.jarr es) =
      .jobj [("name", .jstr "invalid"), ("message", .jstr "invalid"),
             ("data", .jobj [("errors", .jarr (es.map (outerEntry tax)))])] := rfl
  have hk : knownCode tax (arrayToInvalid tax (.jarr es)) =
      some ("invalid", cv) := by
    rw [herr']
    exact knownCode_some_intro tax _ "invalid" cv rfl rfl hInv hc
  have hd : getField (dataOf (arrayToInvalid tax (.jarr es))) "errors" =
      .jarr (es.map (outerEntry tax)) := by
    rw [herr']
    rfl
  have hresp := getResponse_of_invalid tax (arrayToInvalid tax (.jarr es)) cv
      (es.map (outerEntry tax)) hk hd
  have hmap : (es.map (outerEntry tax)).map
        (fun e => respEntry (getResponse tax e)) =
      es.map (specSingleEntry tax) := by
    rw [List.map_map]
    apply List.map_congr_left
    intro e he
    exact entry_normalizes tax e hErr hEmpty hNZ (hFlat e he)
  have hdo : dataOf (arrayToInvalid tax (.jarr es)) =
      .jobj [("errors", .jarr (es.map (outerEntry tax)))] := by
    rw [herr']
    rfl
  have hrse : routeSendError tax (.jarr es) lc =
      { pre := logError (getResponse tax (arrayToInvalid tax (.jarr es)))
                 (arrayToInvalid tax (.jarr es)) lc,
        status := (getResponse tax (arrayToInvalid tax (.jarr es))).code,
        body := .jobj
          [("name", .jstr (getResponse tax (arrayToInvalid tax (.jarr es))).name),
           ("data", (getResponse tax (arrayToInvalid tax (.jarr es))).data),
           ("message",
             (getResponse tax (arrayToInvalid tax (.jarr es))).message)] } := rfl
  constructor
  · rw [hrse, hresp]
  · rw [hrse, hresp]
    simp only [hmap, hdo]
    rw [herr']
    rfl

/-- C2 witness: a two-element sequence — a known `required` error and
an unknown `weird` error — yields the `invalid` envelope with status
400 and both entries independently normalized. -/
theorem C2_array_invalid_envelope_witness :
    (routeSendError [("invalid", 400), ("required", 422)]
      (.jarr [.jobj [("name", .jstr "required"),
                     ("message", .jstr "value is required"),
                     ("path", .jstr "title")],
              .jobj [("name", .jstr "weird"),
                     ("message", .jstr "secret")]])
      none).status = 400 ∧
    (routeSendError [("invalid", 400), ("required", 422)]
      (.jarr [.jobj [("name", .jstr "required"),
                     ("message", .jstr "value is required"),
                     ("path", .jstr "title")],
              .jobj [("name", .jstr "weird"),
                     ("message", .jstr "secret")]])
      none).body =
      .jobj [("name", .jstr "invalid"),
             ("data", .jobj [("errors", .jarr
               (List.map (specSingleEntry [("invalid", 400), ("required", 422)])
                 [.jobj [("name", .jstr "required"),
                         ("message", .jstr "value is required"),
                         ("path", .jstr "title")],
                  .jobj [("name", .jstr "weird"),
                         ("message", .jstr "secret")]]))]),
             ("message", .jstr "invalid")] :=
  C2_array_invalid_envelope [("invalid", 400), ("required", 422)]
    [.jobj [("name", .jstr "required"), ("message", .jstr "value is required"),
            ("path", .jstr "title")],
     .jobj [("name", .jstr "weird"), ("message", .jstr "secret")]]
    none 400 rfl rfl rfl rfl (by decide)

/-- C7: for every error sent through `routeSendError`, the effect trace
is the structured log event followed by the response: the event key is
`api-error` when the resolved status is 500 and `api-error-<name>`
otherwise, and the event carries the resolved name, the status, the
stack trace with its top line dropped, the cause, the path and the
data; when the structured logger itself throws, the exception is caught
and reported through the fallback channel, and the HTTP response is
still sent with the same status and body. -/
theorem C7_error_logging (tax : Tax) (err : JVal) (m : String) :
    sendTrace (routeSendError tax err none) =
      [Effect.log
        (if (getResponse tax (arrayToInvalid tax err)).code == 500
         then "api-error"
         else "api-error-" ++ (getResponse tax (arrayToInvalid tax err)).name)
        (if (getResponse tax (arrayToInvalid tax err)).code == 500
         then getField (arrayToInvalid tax err) "message"
         else (getResponse tax (arrayToInvalid tax err)).message)
        { name := (getResponse tax (arrayToInvalid tax err)).name,
          status := (getResponse tax (arrayToInvalid tax err)).code,
          stack := stackLines (getField (arrayToInvalid tax err) "stack"),
          cause := getField (arrayToInvalid tax err) "cause",
          errorPath := (getResponse tax (arrayToInvalid tax err)).path,
          data := (getResponse tax (arrayToInvalid tax err)).data },
       Effect.status (getResponse tax (arrayToInvalid tax err)).code,
       Effect.send (.jobj
         [("name", .jstr (getResponse tax (arrayToInvalid tax err)).name),
          ("data", (getResponse tax (arrayToInvalid tax err)).data),
          ("message", (getResponse tax (arrayToInvalid tax err)).message)])] ∧
    sendTrace (routeSendError tax err (some m)) =
      [Effect.fallbackLog ("Structured logging error: " ++ m),
       Effect.status (getResponse tax (arrayToInvalid tax err)).code,
       Effect.send (.jobj
         [("name", .jstr (getResponse tax (arrayToInvalid tax err)).name),
          ("data", (getResponse tax (arrayToInvalid tax err)).data),
          ("message", (getResponse tax (arrayToInvalid tax err)).message)])] := by
  constructor
  · by_cases hb : ((getResponse tax (arrayToInvalid tax err)).code == 500) = true
    · simp only [sendTrace, routeSendError, logError, hb, if_true]
      rfl
    · simp only [Bool.not_eq_true] at hb
      simp only [sendTrace, routeSendError, logError, hb, if_false]
      rfl
  · rfl

/-- C3: `compileAllRoutes` appends to `self._routes`, in order, first
every compiled route of the `routes` section, then every route of
`renderRoutes`, and last every route of `apiRoutes` after the REST
shorthand (including its `:_id` wildcard entries) has been merged in:
every `routes`/`renderRoutes` entry appears in the table before every
`apiRoutes` entry. -/
theorem C3_section_order (m : ModuleState) :
    (compileAllRoutes m)._routes =
      m._routes
      ++ sectionCompiled m.action .routes m.routes
      ++ sectionCompiled m.action .renderRoutes m.renderRoutes
      ++ sectionCompiled m.action .apiRoutes
           ((compileRestApiRoutesToApiRoutes m).apiRoutes) := rfl

/-- C4: `getRouteUrl` returns the name verbatim when it starts with
`/`; the module's action prefix joined to the name with `/` when the
name contains `/`, `:` or `*`; and otherwise the action prefix joined
to the kebab-case conversion of the name — so `saveArea` with prefix
`/api/v1/test` yields `/api/v1/test/save-area`. -/
theorem C4_getRouteUrl (action name : String) :
    (startsWithSlash name = true → getRouteUrl action name = name) ∧
    (startsWithSlash name = false → hasUrlChar name = true →
      getRouteUrl action name = action ++ "/" ++ name) ∧
    (startsWithSlash name = false → hasUrlChar name = false →
      getRouteUrl action name = action ++ "/" ++ cssName name) ∧
    getRouteUrl "/api/v1/test" "saveArea" = "/api/v1/test/save-area" := by
  refine ⟨?_, ?_, ?_, ?_⟩
  · intro h
    simp [getRouteUrl, h]
  · intro h1 h2
    simp [getRouteUrl, h1, h2]
  · intro h1 h2
    simp [getRouteUrl, h1, h2]
  · rfl

/-- C4 witness: the three URL derivation cases at the spec's concrete
examples. -/
theorem C4_getRouteUrl_witness :
    getRouteUrl "/api/v1/test" "/custom" = "/custom" ∧
    getRouteUrl "/api/v1/test" "foo/:id" = "/api/v1/test/foo/:id" ∧
    getRouteUrl "/api/v1/test" "saveArea" = "/api/v1/test/save-area" :=
  ⟨(C4_getRouteUrl "/api/v1/test" "/custom").1 rfl,
   (C4_getRouteUrl "/api/v1/test" "foo/:id").2.1 rfl rfl,
   (C4_getRouteUrl "/api/v1/test" "saveArea").2.2.2⟩

/-- C5: `compileRestApiRoutesToApiRoutes` copies `getAll` and `post`
into `apiRoutes` under the route name `''` and `getOne`, `delete`,
`patch` and `put` under `':_id'` with the terminal handler replaced;
`wrapId` preserves every middleware entry of an array declaration and
rewrites only the terminal handler; and the rewritten handler invokes
the original with the extracted `req.params._id` as its second
argument. -/
theorem C5_rest_shorthand (act : String) (rt rr : SectionTbl)
    (r0 : List CompiledRoute) (gA gO pP pU pPa pD : RouteVal)
    (env : HandlerEnv) (h : Handler) (req : Req) (arg : Option String)
    (mids : List Handler) (t : Handler) :
    compileRestApiRoutesToApiRoutes
      { action := act, routes := rt, renderRoutes := rr, apiRoutes := [],
        restApiRoutes :=
          { getAll := some gA, getOne := some gO, post := some pP,
            put := some pU, patch := some pPa, delete := some pD },
        _routes := r0 } =
      { action := act, routes := rt, renderRoutes := rr,
        apiRoutes :=
          [("get", [("", .direct gA), (":_id", .direct (wrapId gO))]),
           ("delete", [(":_id", .direct (wrapId pD))]),
           ("patch", [(":_id", .direct (wrapId pPa))]),
           ("put", [(":_id", .direct (wrapId pU))]),
           ("post", [("", .direct pP)])],
        restApiRoutes :=
          { getAll := some gA, getOne := some gO, post := some pP,
            put := some pU, patch := some pPa, delete := some pD },
        _routes := r0 } ∧
    wrapId (.chain mids t) = .chain mids (.idWrapped t) ∧
    wrapId (.fn h) = .fn (.idWrapped h) ∧
    runHandler env (.idWrapped h) req arg =
      runHandler env h req (some req.paramsId) :=
  ⟨rfl, rfl, rfl, rfl⟩

/-- C6: the api route wrapper awaits the handler; on success it
responds with status 200 and the raw resolved value as the body, first
setting `Cache-Control: no-store` when the method is GET and the
request is authenticated; on a thrown error it delegates to
`routeSendError`. -/
theorem C6_api_wrapper (tax : Tax) (env : HandlerEnv) (name : String)
    (fn : Handler) (req : Req) (lc : Option String) :
    (∀ v, runHandler env fn req none = .ok v →
      routeWrappers_apiRoutes tax env name fn req lc =
        (if req.method == "GET" && req.user
         then [Effect.header "Cache-Control" "no-store"] else [])
        ++ [Effect.status 200, Effect.send v]) ∧
    (∀ e, runHandler env fn req none = .thrown e →
      routeWrappers_apiRoutes tax env name fn req lc =
        sendTrace (routeSendError tax e lc)) := by
  constructor
  · intro v hv
    unfold routeWrappers_apiRoutes
    rw [hv]
  · intro e he
    unfold routeWrappers_apiRoutes
    rw [he]

/-- C6 witness: a resolving handler on an authenticated GET request
produces the no-store header, status 200 and the raw body; a throwing
handler produces the `routeSendError` trace. -/
theorem C6_api_wrapper_witness :
    routeWrappers_apiRoutes [] (fun _ _ _ => .ok (.jnum 7)) "n" (.base 0)
      { method := "GET", user := true, paramsId := "i", session := [],
        resStatusCode := 200, ifNoneMatch := none, dataPiece := none,
        dataPage := none } none =
      [Effect.header "Cache-Control" "no-store", Effect.status 200,
       Effect.send (.jnum 7)] ∧
    routeWrappers_apiRoutes [] (fun _ _ _ => .thrown (.jobj [])) "n" (.base 0)
      { method := "POST", user := false, paramsId := "i", session := [],
        resStatusCode := 200, ifNoneMatch := none, dataPiece := none,
        dataPage := none } none =
      sendTrace (routeSendError [] (.jobj []) none) :=
  ⟨(C6_api_wrapper [] (fun _ _ _ => .ok (.jnum 7)) "n" (.base 0)
      { method := "GET", user := true, paramsId := "i", session := [],
        resStatusCode := 200, ifNoneMatch := none, dataPiece := none,
        dataPage := none } none).1 (.jnum 7) rfl,
   (C6_api_wrapper [] (fun _ _ _ => .thrown (.jobj [])) "n" (.base 0)
      { method := "POST", user := false, paramsId := "i", session := [],
        resStatusCode := 200, ifNoneMatch := none, dataPiece := none,
        dataPage := none } none).2 (.jobj []) rfl⟩

/-- C8: `isSafeToCache` is false whenever the request is authenticated
or the pending status is at least 400; otherwise it is true iff every
session entry is the `cookie` bookkeeping key or is `flash`/`passport`
holding an empty value; in particular it is true for an unauthenticated
request whose session holds only the cookie key. -/
theorem C8_isSafeToCache (req : Req) :
    (req.user = true → isSafeToCache req = false) ∧
    (400 ≤ req.resStatusCode → isSafeToCache req = false) ∧
    (req.user = false → req.resStatusCode < 400 →
      (isSafeToCache req = true ↔
        ∀ kv ∈ req.session, kv.1 = "cookie" ∨
          ((kv.1 = "flash" ∨ kv.1 = "passport") ∧ isEmptyJs kv.2 = true))) ∧
    (req.user = false → req.resStatusCode < 400 →
      (∀ kv ∈ req.session, kv.1 = "cookie") → isSafeToCache req = true) := by
  refine ⟨?_, ?_, ?_, ?_⟩
  · intro h
    simp [isSafeToCache, h]
  · intro h
    rcases Bool.eq_false_or_eq_true req.user with hu | hu <;>
      simp [isSafeToCache, hu, h]
  · intro hu hs
    rw [isSafeToCache, if_neg (by simp [hu]), if_neg (by omega)]
    simp [List.all_eq_true, Bool.or_eq_true, Bool.and_eq_true, beq_iff_eq]
  · intro hu hs hall
    rw [isSafeToCache, if_neg (by simp [hu]), if_neg (by omega)]
    apply List.all_eq_true.mpr
    intro kv hkv
    simp [hall kv hkv]

/-- C8 witness: an unauthenticated 200 request whose session holds only
the cookie bookkeeping key is safe to cache. -/
theorem C8_isSafeToCache_witness :
    isSafeToCache
      { method := "GET", user := false, paramsId := "i",
        session := [("cookie", .jobj [("path", .jstr "/")])],
        resStatusCode := 200, ifNoneMatch := none, dataPiece := none,
        dataPage := none } = true :=
  (C8_isSafeToCache
    { method := "GET", user := false, paramsId := "i",
      session := [("cookie", .jobj [("path", .jstr "/")])],
      resStatusCode := 200, ifNoneMatch := none, dataPiece := none,
      dataPage := none }).2.2.2 rfl (by decide)
    (by
      intro kv hkv
      simp only [List.mem_singleton] at hkv
      rw [hkv])

/-- C9 (amended): `checkETag` misses (and sets no ETag) when the
current parts cannot be generated or the request is unsafe to cache;
with current parts `[p0, p1]` and a client triple `[p0, p1, cs]` whose
`clientSetAt` segment coerces (by full JS `ToNumber`) to a finite
number `q` it hits and re-emits the client's triple unchanged exactly
when the age `(now - q) / 1000` seconds is at most `maxAge`, and
misses with the fresh triple `[p0, p1, now]` when the age exceeds
`maxAge`; with a non-matching client header it misses and emits the
fresh triple; and — the amendment — when the first two client segments
match but the `clientSetAt` segment is missing or coerces to NaN, the
age is NaN, every comparison with `maxAge` is false, and the header is
reported as a hit and re-emitted unchanged. -/
theorem C9_checkETag (rid : String) (now : Int) (req : Req)
    (doc : Option Doc) (maxAge : Int) :
    (generateETagParts rid req doc = none →
      checkETag rid now req doc maxAge = { hit := false, etagSet := none }) ∧
    (isSafeToCache req = false →
      checkETag rid now req doc maxAge = { hit := false, etagSet := none }) ∧
    (∀ p0 p1 cs q, generateETagParts rid req doc = some [p0, p1] →
      isSafeToCache req = true →
      clientETagPartsOf req = [p0, p1, cs] →
      strToNumber cs = JsNum.num q →
      ((now : ℚ) - q) / 1000 ≤ (maxAge : ℚ) →
      checkETag rid now req doc maxAge =
        { hit := true, etagSet := some (setETag [p0, p1, cs]) }) ∧
    (∀ p0 p1 cs q, generateETagParts rid req doc = some [p0, p1] →
      isSafeToCache req = true →
      clientETagPartsOf req = [p0, p1, cs] →
      strToNumber cs = JsNum.num q →
      ((now : ℚ) - q) / 1000 > (maxAge : ℚ) →
      checkETag rid now req doc maxAge =
        { hit := false,
          etagSet := some (setETag [p0, p1, toString now]) }) ∧
    (∀ p0 p1, generateETagParts rid req doc = some [p0, p1] →
      isSafeToCache req = true →
      ((clientETagPartsOf req)[0]? == some p0
        && (clientETagPartsOf req)[1]? == some p1) = false →
      checkETag rid now req doc maxAge =
        { hit := false,
          etagSet := some (setETag [p0, p1, toString now]) }) ∧
    (∀ p0 p1, generateETagParts rid req doc = some [p0, p1] →
      isSafeToCache req = true →
      ((clientETagPartsOf req)[0]? == some p0
        && (clientETagPartsOf req)[1]? == some p1) = true →
      toNumber ((clientETagPartsOf req)[2]?) = JsNum.nan →
      checkETag rid now req doc maxAge =
        { hit := true, etagSet := some (setETag (clientETagPartsOf req)) }) := by
  refine ⟨?_, ?_, ?_, ?_, ?_, ?_⟩
  · intro h
    unfold checkETag
    rw [h]
  · intro h
    unfold checkETag
    cases hg : generateETagParts rid req doc with
    | none => rfl
    | some parts => rw [h]; rfl
  · intro p0 p1 cs q hg hs hparts hq hage
    have hgt : jsGtInt (jsDiv1000 (jsSub now (toNumber (some cs)))) maxAge
        = false := by
      show jsGtInt (jsDiv1000 (jsSub now (strToNumber cs))) maxAge = false
      rw [hq]
      show decide (((now : ℚ) - q) / 1000 > (maxAge : ℚ)) = false
      exact decide_eq_false (not_lt.mpr hage)
    unfold checkETag
    rw [hg, hs, hparts]
    simp [hgt]
  · intro p0 p1 cs q hg hs hparts hq hage
    have hgt : jsGtInt (jsDiv1000 (jsSub now (toNumber (some cs)))) maxAge
        = true := by
      show jsGtInt (jsDiv1000 (jsSub now (strToNumber cs))) maxAge = true
      rw [hq]
      show decide (((now : ℚ) - q) / 1000 > (maxAge : ℚ)) = true
      exact decide_eq_true hage
    unfold checkETag
    rw [hg, hs, hparts]
    simp [hgt]
  · intro p0 p1 hg hs hmatch
    unfold checkETag
    rw [hg, hs]
    simp only [List.getElem?_cons_zero, List.getElem?_cons_succ,
      List.getElem?_nil] at hmatch ⊢
    rw [hmatch]
    rfl
  · intro p0 p1 hg hs hmatch hnan
    unfold checkETag
    rw [hg, hs]
    simp only [List.getElem?_cons_zero, List.getElem?_cons_succ,
      List.getElem?_nil] at hmatch hnan ⊢
    rw [hmatch, hnan]
    rfl

/-- C9 witness: with release id `r1`, timestamp `100`, a client header
`r1:100:5000` (so `clientSetAt` coerces to the number 5000),
`now = 6000` ms and `maxAge = 10` s the ETag hits and is re-emitted
unchanged; with `maxAge = 0` it is stale and the fresh triple
`r1:100:6000` is emitted. -/
theorem C9_checkETag_witness :
    checkETag "r1" 6000
      { method := "GET", user := false, paramsId := "i", session := [],
        resStatusCode := 200, ifNoneMatch := some "r1:100:5000",
        dataPiece := some { cacheInvalidatedAt := some 100 },
        dataPage := none } none 10 =
      { hit := true, etagSet := some (setETag ["r1", "100", "5000"]) } ∧
    checkETag "r1" 6000
      { method := "GET", user := false, paramsId := "i", session := [],
        resStatusCode := 200, ifNoneMatch := some "r1:100:5000",
        dataPiece := some { cacheInvalidatedAt := some 100 },
        dataPage := none } none 0 =
      { hit := false, etagSet := some (setETag ["r1", "100", toString (6000 : Int)]) } :=
  ⟨(C9_checkETag "r1" 6000
      { method := "GET", user := false, paramsId := "i", session := [],
        resStatusCode := 200, ifNoneMatch := some "r1:100:5000",
        dataPiece := some { cacheInvalidatedAt := some 100 },
        dataPage := none } none 10).2.2.1 "r1" "100" "5000" 5000 rfl rfl
      (by decide) (by decide) (by norm_num),
   (C9_checkETag "r1" 6000
      { method := "GET", user := false, paramsId := "i", session := [],
        resStatusCode := 200, ifNoneMatch := some "r1:100:5000",
        dataPiece := some { cacheInvalidatedAt := some 100 },
        dataPage := none } none 0).2.2.2.1 "r1" "100" "5000" 5000 rfl rfl
      (by decide) (by decide) (by norm_num)⟩

/-- C9 counterexample: with current parts `["r1", "100"]`, a safe
request and client header `r1:100` — whose first two segments match
but which has no `clientSetAt` segment, so its age is not a number and
in particular not at most `maxAge` — `checkETag` reports a hit and
re-emits the truncated header unchanged, where the claim as stated
predicts a miss with a fresh triple. -/
theorem C9_checkETag_counterexample :
    checkETag "r1" 6000
      { method := "GET", user := false, paramsId := "i", session := [],
        resStatusCode := 200, ifNoneMatch := some "r1:100",
        dataPiece := some { cacheInvalidatedAt := some 100 },
        dataPage := none } none 10 =
      { hit := true, etagSet := some "r1:100" } := rfl

/-- C10: `generateETagParts` falls back from the given document to
`req.data.piece` and then to `req.data.page`; it returns `null` exactly
when the chosen context is absent or lacks a `cacheInvalidatedAt`
value, and otherwise returns the release id together with the
invalidation time as a decimal millisecond string. -/
theorem C10_generateETagParts (rid : String) (req : Req) (doc : Option Doc) :
    (∀ d, doc = some d → etagContext req doc = some d) ∧
    (doc = none → ∀ p, req.dataPiece = some p → etagContext req doc = some p) ∧
    (doc = none → req.dataPiece = none → etagContext req doc = req.dataPage) ∧
    (generateETagParts rid req doc = none ↔
      ∀ c, etagContext req doc = some c → c.cacheInvalidatedAt = none) ∧
    (∀ c t, etagContext req doc = some c → c.cacheInvalidatedAt = some t →
      generateETagParts rid req doc = some [rid, toString t]) := by
  refine ⟨?_, ?_, ?_, ?_, ?_⟩
  · intro d h
    subst h
    rfl
  · intro h p hp
    subst h
    simp [etagContext, hp]
  · intro h hp
    subst h
    simp [etagContext, hp]
  · unfold generateETagParts
    cases hc : etagContext req doc with
    | none => simp
    | some c =>
      cases ht : c.cacheInvalidatedAt with
      | none => simp [ht]
      | some t => simp [ht]
  · intro c t hc ht
    simp only [generateETagParts, hc, ht]

/-- C10 witness: with no document and no piece the page is the context;
a page with `cacheInvalidatedAt = 100` yields `["r1", "100"]`, and with
no timestamp the result is `null`. -/
theorem C10_generateETagParts_witness :
    generateETagParts "r1"
      { method := "GET", user := false, paramsId := "i", session := [],
        resStatusCode := 200, ifNoneMatch := none, dataPiece := none,
        dataPage := some { cacheInvalidatedAt := some 100 } } none =
      some ["r1", toString (100 : Int)] ∧
    generateETagParts "r1"
      { method := "GET", user := false, paramsId := "i", session := [],
        resStatusCode := 200, ifNoneMatch := none, dataPiece := none,
        dataPage := some { cacheInvalidatedAt := none } } none = none :=
  ⟨(C10_generateETagParts "r1"
      { method := "GET", user := false, paramsId := "i", session := [],
        resStatusCode := 200, ifNoneMatch := none, dataPiece := none,
        dataPage := some { cacheInvalidatedAt := some 100 } } none).2.2.2.2
      { cacheInvalidatedAt := some 100 } 100 rfl rfl,
   ((C10_generateETagParts "r1"
      { method := "GET", user := false, paramsId := "i", session := [],
        resStatusCode := 200, ifNoneMatch := none, dataPiece := none,
        dataPage := some { cacheInvalidatedAt := none } } none).2.2.2.1).mpr
      (by
        intro c hc
        cases hc
        rfl)⟩

end Apos
